import Mathlib

/-!
Shallow embedding of the graphics internals of the ebiten repository:
the `restorable` image layer (`NewImage`, `clearImage`, `ClearPixels`)
and the `internal/graphics` framebuffer layer (`Framebuffer`, `Size`,
`Dispose`, `setAsViewport`, `projectionMatrix`, `Fill`, `DrawTexture`,
`Pixels`), together with the small part of Go's standard `image`
package that the code uses (`Rect`, `Intersect`, `Dx`, `Dy`, `Empty`).

Go `int`/`int32` values are embedded as `Int`; `float32`/`float64`
values as `ℚ` (the claims checked here concern which arguments flow
where and caching behaviour, not rounding); a Go panic is embedded as
`Except.error`; driver calls are embedded as a trace of `GLCall`
records, with the driver context an oracle assigning each call an
optional error.
-/

namespace Ebiten

/-! ## Go standard `image` package (the fragment the source uses) -/

/-- Go `image.Point`: a 2D integer point. -/
structure Point where
  x : Int
  y : Int
deriving DecidableEq, Repr

/-- Go `image.Rectangle`: min is inclusive, max is exclusive. -/
structure Rectangle where
  min : Point
  max : Point
deriving DecidableEq, Repr

/-- Go `(r Rectangle).Dx()`: `r.Max.X - r.Min.X`. -/
def Rectangle.Dx (r : Rectangle) : Int := r.max.x - r.min.x

/-- Go `(r Rectangle).Dy()`: `r.Max.Y - r.Min.Y`. -/
def Rectangle.Dy (r : Rectangle) : Int := r.max.y - r.min.y

/-- Go `(r Rectangle).Empty()`: `r.Min.X >= r.Max.X || r.Min.Y >= r.Max.Y`. -/
def Rectangle.Empty (r : Rectangle) : Bool :=
  decide (r.max.x ≤ r.min.x) || decide (r.max.y ≤ r.min.y)

/-- The zero `image.Rectangle`, `Rectangle{}`. -/
def Rectangle.zero : Rectangle := ⟨⟨0, 0⟩, ⟨0, 0⟩⟩

/-- Go `image.Rect(x0, y0, x1, y1)`: swaps the coordinates so that
min ≤ max on each axis. -/
def Rect (x0 y0 x1 y1 : Int) : Rectangle :=
  let xs := if x1 < x0 then (x1, x0) else (x0, x1)
  let ys := if y1 < y0 then (y1, y0) else (y0, y1)
  ⟨⟨xs.1, ys.1⟩, ⟨xs.2, ys.2⟩⟩

/-- Go `(r Rectangle).Intersect(s)`: clips `r` against `s` and returns the
zero rectangle when the clipped result is empty. -/
def Rectangle.Intersect (r s : Rectangle) : Rectangle :=
  let t : Rectangle :=
    ⟨⟨Max.max r.min.x s.min.x, Max.max r.min.y s.min.y⟩,
     ⟨Min.min r.max.x s.max.x, Min.min r.max.y s.max.y⟩⟩
  if t.Empty then Rectangle.zero else t

/-- Membership of a point in a rectangle, as in Go `(p Point).In(r)`:
`r.Min.X <= p.X && p.X < r.Max.X && r.Min.Y <= p.Y && p.Y < r.Max.Y`. -/
def inRect (r : Rectangle) (x y : Int) : Bool :=
  decide (r.min.x ≤ x ∧ x < r.max.x ∧ r.min.y ≤ y ∧ y < r.max.y)

/-! ## Pixels

Modelled from the spec: pixel data is RGBA per texel (§6); channel
values are embedded as `ℚ`. -/

/-- Modelled from the spec: one RGBA texel. -/
structure Color where
  r : ℚ
  g : ℚ
  b : ℚ
  a : ℚ
deriving DecidableEq, Repr

/-- The fully transparent color (all channels zero). -/
def Color.transparent : Color := ⟨0, 0, 0, 0⟩

/-- A pixel map: contents of a backing region, one color per integer
coordinate. -/
def PixMap : Type := Int → Int → Color

/-! ## `internal/graphics` constants and vertex helpers

`QuadVerticesFromDstAndSrc`, `QuadIndices`, `ShaderSrcImageCount` and
the shader handle live in repository files that are not under `src/`;
they are modelled from the spec. -/

/-- Modelled from the spec: a shader "declares a fixed count of
source-texture slots" (§6); the count itself is a fixed constant of the
graphics package. -/
def ShaderSrcImageCount : Nat := 4

/-- Modelled from the spec: one vertex of the fixed vertex attribute
layout "position, texture coordinate, color scale" (§6). -/
structure Vertex where
  dstX : ℚ
  dstY : ℚ
  srcX : ℚ
  srcY : ℚ
  colorR : ℚ
  colorG : ℚ
  colorB : ℚ
  colorA : ℚ
deriving DecidableEq, Repr

/-- Modelled from the spec: `graphics.QuadVerticesFromDstAndSrc`
produces the four corner vertices of a destination/source quad with the
given color scale, in the fixed vertex attribute layout (§6). -/
def QuadVerticesFromDstAndSrc (dx0 dy0 dx1 dy1 sx0 sy0 sx1 sy1 cr cg cb ca : ℚ) :
    List Vertex :=
  [⟨dx0, dy0, sx0, sy0, cr, cg, cb, ca⟩,
   ⟨dx1, dy0, sx1, sy0, cr, cg, cb, ca⟩,
   ⟨dx0, dy1, sx0, sy1, cr, cg, cb, ca⟩,
   ⟨dx1, dy1, sx1, sy1, cr, cg, cb, ca⟩]

/-- Modelled from the spec: `graphics.QuadIndices`, the index buffer of
the two triangles of a quad. -/
def QuadIndices : List Nat := [0, 1, 2, 1, 2, 3]

/-- The blend mode used by the embedded code: `graphicsdriver.BlendClear`. -/
inductive Blend where
  | clear
deriving DecidableEq, Repr

/-- The fill rule used by the embedded code: `graphicsdriver.FillRuleFillAll`. -/
inductive FillRule where
  | fillAll
deriving DecidableEq, Repr

/-- Modelled from the spec: a shader is "identified by compiled handle"
(§6); `clearShader.Shader` is one such handle. -/
def clearShaderHandle : Nat := 0

/-! ## `internal/graphicscommand` image (not under `src/`; modelled) -/

/-- Modelled from the spec: `graphicscommand.Image`, the command-queue
layer's logical image — "identity, width, height, a flag marking whether
it is a screen (swap-chain) target" (§3). -/
structure GCImage where
  width : Int
  height : Int
  screen : Bool
deriving DecidableEq, Repr

/-- Modelled from the spec: `graphicscommand.NewImage(width, height,
screen)` creates the command-queue layer's image record. -/
def GCImage.new (width height : Int) (screen : Bool) : GCImage :=
  ⟨width, height, screen⟩

/-- Doubling loop behind `NextPowerOf2`: doubles `acc` (a power of two)
until it reaches `n`, with enough fuel to terminate. -/
def np2go (n : Nat) : Nat → Nat → Nat
  | 0, acc => acc
  | fuel + 1, acc => if n ≤ acc then acc else np2go n fuel (2 * acc)

/-- Modelled from the spec: the least power of two that is at least `n`
("sized to the next power of two ≥ requested size", §4.2); used for
`NextPowerOf2Int32` and for internal backing sizes. -/
def NextPowerOf2 (n : Int) : Int :=
  (np2go n.toNat n.toNat 1 : Nat)

/-- Modelled from the spec: `(i *graphicscommand.Image).InternalSize()`,
the size of the backing region, "sized to the next power of two ≥
requested size" (§4.2). -/
def GCImage.InternalSize (i : GCImage) : Int × Int :=
  (NextPowerOf2 i.width, NextPowerOf2 i.height)

/-- One issued `(i *graphicscommand.Image).DrawTriangles(...)` call,
recorded with all its arguments. -/
structure DrawTrianglesCall where
  dst : GCImage
  srcs : List (Option GCImage)
  vertices : List Vertex
  indices : List Nat
  blend : Blend
  dstRegion : Rectangle
  srcRegions : List Rectangle
  shader : Nat
  fillRule : FillRule
deriving DecidableEq, Repr

/-- Modelled from the spec: `(i *graphicscommand.Image).DrawTriangles`
enqueues one draw-triangles operation (§4.1); embedded as producing the
call record. -/
def GCImage.DrawTriangles (i : GCImage) (srcs : List (Option GCImage))
    (vs : List Vertex) (is : List Nat) (blend : Blend) (dstRegion : Rectangle)
    (srcRegions : List Rectangle) (shader : Nat) (fillRule : FillRule) :
    DrawTrianglesCall :=
  ⟨i, srcs, vs, is, blend, dstRegion, srcRegions, shader, fillRule⟩

/-- Modelled from the spec: the pixel effect of one recorded clear draw —
"drawing a fully-transparent quad with a clear blend mode over the
clipped region" (§4.3) sets every texel of the destination region to
transparent and leaves all other texels unchanged. -/
def drawCallSem (c : DrawTrianglesCall) (p : PixMap) : PixMap :=
  match c.blend with
  | .clear => fun x y => if inRect c.dstRegion x y then Color.transparent else p x y

/-! ## `restorable` package (from `src/unnamed/part_000`) -/

/-- `restorable.Image`: the underlying `graphicscommand.Image` plus the
width and height given at creation. The Go field is named `Image`;
Lean cannot reuse the structure's own name for a field, so it is
embedded as `img`. -/
structure Image where
  img : GCImage
  width : Int
  height : Int
deriving DecidableEq, Repr

/-- `restorable.clearImage(i, region)`: builds quad vertices over
`region` with zero source coordinates and zero colors, quad indices,
and issues one `DrawTriangles` with `BlendClear`, no source images, zero
source regions, the clear shader and `FillRuleFillAll`. -/
def clearImage (i : GCImage) (region : Rectangle) : DrawTrianglesCall :=
  let vs := QuadVerticesFromDstAndSrc (region.min.x : ℚ) (region.min.y : ℚ)
    (region.max.x : ℚ) (region.max.y : ℚ) 0 0 0 0 0 0 0 0
  let is := QuadIndices
  GCImage.DrawTriangles i (List.replicate ShaderSrcImageCount none) vs is
    Blend.clear region (List.replicate ShaderSrcImageCount Rectangle.zero)
    clearShaderHandle FillRule.fillAll

/-- `restorable.NewImage(width, height, screen)`: creates the image and
clears it once over the whole internal (backing) size; the second
component is the list of draw calls issued (exactly one). -/
def NewImage (width height : Int) (screen : Bool) : Image × List DrawTrianglesCall :=
  let i : Image := ⟨GCImage.new width height screen, width, height⟩
  let iw := (GCImage.InternalSize i.img).1
  let ih := (GCImage.InternalSize i.img).2
  (i, [clearImage i.img (Rect 0 0 iw ih)])

/-- `(i *restorable.Image).ClearPixels(region)`: panics when the region's
width or height is non-positive, otherwise clears the region clipped to
the image's bounds. The Go panic is embedded as `Except.error`; on
success the (unmutated) image and the one issued draw call are returned. -/
def Image.ClearPixels (i : Image) (region : Rectangle) :
    Except String (Image × DrawTrianglesCall) :=
  if region.Dx ≤ 0 ∨ region.Dy ≤ 0 then
    Except.error "restorable: width/height must be positive"
  else
    Except.ok (i, clearImage i.img (region.Intersect (Rect 0 0 i.width i.height)))

/-! ## `internal/graphics` framebuffer layer
(from `src/internal/graphics/framebuffer.go`)

The `opengl` package is not under `src/`: its `Framebuffer` handle type
is modelled as `Nat` with `ZeroFramebuffer` the zero value (the default
framebuffer), and the `Context` as an oracle assigning each issued
driver call an optional error string. Each embedded method returns the
trace of driver calls it issued alongside its Go results. -/

/-- Modelled from the spec: `opengl.ZeroFramebuffer`, the handle of the
default framebuffer; a Go struct literal that omits the `native` field
leaves it at this zero value. -/
def ZeroFramebuffer : Nat := 0

/-- A 4×4 `float64` matrix (entries embedded as `ℚ`); `a01` is row 0,
column 1, matching `m[0][1]`. -/
structure Mat4 where
  a00 : ℚ
  a01 : ℚ
  a02 : ℚ
  a03 : ℚ
  a10 : ℚ
  a11 : ℚ
  a12 : ℚ
  a13 : ℚ
  a20 : ℚ
  a21 : ℚ
  a22 : ℚ
  a23 : ℚ
  a30 : ℚ
  a31 : ℚ
  a32 : ℚ
  a33 : ℚ
deriving DecidableEq, Repr

/-- `graphics.orthoProjectionMatrix(left, right, bottom, top)`. -/
def orthoProjectionMatrix (left right bottom top : Int) : Mat4 :=
  let e11 : ℚ := 2 / ((right : ℚ) - (left : ℚ))
  let e22 : ℚ := 2 / ((top : ℚ) - (bottom : ℚ))
  let e14 : ℚ := -1 * ((right : ℚ) + (left : ℚ)) / ((right : ℚ) - (left : ℚ))
  let e24 : ℚ := -1 * ((top : ℚ) + (bottom : ℚ)) / ((top : ℚ) - (bottom : ℚ))
  ⟨e11, 0, 0, e14,
   0, e22, 0, e24,
   0, 0, 1, 0,
   0, 0, 0, 1⟩

/-- `graphics.Texture` (only the fields the embedded methods touch):
the native handle and its size. -/
structure Texture where
  native : Nat
  width : Int
  height : Int
deriving DecidableEq, Repr

/-- One driver call issued through the `opengl.Context`. -/
inductive GLCall where
  | setViewport (native : Nat) (width height : Int)
  | fillFramebuffer (r g b a : ℚ)
  | deleteFramebuffer (native : Nat)
  | framebufferPixels (native : Nat) (width height : Int)
  | drawTexture (texNative : Nat) (proj : Mat4)
deriving DecidableEq, Repr

/-- The driver context as an oracle: each call either succeeds (`none`)
or fails with an error string. -/
def Context : Type := GLCall → Option String

/-- `graphics.Framebuffer`: native handle, logical size, flip flag and
the cached projection matrix (`nil` until first computed). -/
structure Framebuffer where
  native : Nat
  width : Int
  height : Int
  flipY : Bool
  proMatrix : Option Mat4
deriving DecidableEq, Repr

/-- `graphics.NewZeroFramebuffer(c, width, height)`: builds the default
framebuffer record (native left at the zero value, `flipY` set) and
always returns a `nil` error. -/
def NewZeroFramebuffer (width height : Int) : Framebuffer × Option String :=
  (⟨ZeroFramebuffer, width, height, true, none⟩, none)

/-- `(f *Framebuffer).Size()`: the stored logical width and height. -/
def Framebuffer.Size (f : Framebuffer) : Int × Int :=
  (f.width, f.height)

/-- `(f *Framebuffer).Dispose(c)`: deletes the native framebuffer unless
it is the default (zero) framebuffer; the result is the trace of driver
calls issued. -/
def Framebuffer.Dispose (f : Framebuffer) : List GLCall :=
  if f.native = ZeroFramebuffer then [] else [GLCall.deleteFramebuffer f.native]

/-- The `SetViewport` call issued by `setAsViewport`: dimensions are the
next powers of two of the logical size. -/
def viewportCall (f : Framebuffer) : GLCall :=
  GLCall.setViewport f.native (NextPowerOf2 f.width) (NextPowerOf2 f.height)

/-- `(f *Framebuffer).setAsViewport(c)`: issues one `SetViewport` call
over `(NextPowerOf2(width), NextPowerOf2(height))` and returns its
error. -/
def Framebuffer.setAsViewport (f : Framebuffer) (c : Context) :
    List GLCall × Option String :=
  ([viewportCall f], c (viewportCall f))

/-- `(f *Framebuffer).projectionMatrix()`: returns the cached matrix if
present; otherwise builds the orthographic matrix over the
next-power-of-two dimensions, applies the `flipY` adjustment
(`m[1][1] *= -1; m[1][3] += height/NextPowerOf2(height)*2`), caches and
returns it. The second component is the framebuffer after the call
(the method mutates `proMatrix` through the pointer). -/
def Framebuffer.projectionMatrix (f : Framebuffer) : Mat4 × Framebuffer :=
  match f.proMatrix with
  | some m => (m, f)
  | none =>
    let width := NextPowerOf2 f.width
    let height := NextPowerOf2 f.height
    let m := orthoProjectionMatrix 0 width 0 height
    let m := if f.flipY then
        { m with a11 := m.a11 * (-1),
                 a13 := m.a13 + (f.height : ℚ) / (height : ℚ) * 2 }
      else m
    (m, { f with proMatrix := some m })

/-- The result of Go `color.Color.RGBA()`: alpha-premultiplied channel
values in `[0, 0xffff]`. -/
structure GoColor where
  r : Nat
  g : Nat
  b : Nat
  a : Nat
deriving DecidableEq, Repr

/-- `(f *Framebuffer).Fill(c, clr)`: sets the viewport (propagating its
error without further driver calls), then issues one `FillFramebuffer`
with the channels scaled by `1/0xffff`. -/
def Framebuffer.Fill (f : Framebuffer) (c : Context) (clr : GoColor) :
    List GLCall × Option String :=
  let v := f.setAsViewport c
  match v.2 with
  | some e => (v.1, some e)
  | none =>
    let maxv : ℚ := 65535
    let fc := GLCall.fillFramebuffer ((clr.r : ℚ) / maxv) ((clr.g : ℚ) / maxv)
      ((clr.b : ℚ) / maxv) ((clr.a : ℚ) / maxv)
    (v.1 ++ [fc], c fc)

/-- `(f *Framebuffer).DrawTexture(c, t, ...)`: sets the viewport
(propagating its error without further driver calls), computes the
projection matrix (caching it in `f`), and issues the draw through the
package-level `drawTexture` helper (not under `src/`; modelled from the
spec as one draw call against the texture with that projection). The
third component is the framebuffer after the call. -/
def Framebuffer.DrawTexture (f : Framebuffer) (c : Context) (t : Texture) :
    List GLCall × Option String × Framebuffer :=
  let v := f.setAsViewport c
  match v.2 with
  | some e => (v.1, some e, f)
  | none =>
    let pm := f.projectionMatrix
    let dc := GLCall.drawTexture t.native pm.1
    (v.1 ++ [dc], c dc, pm.2)

/-- `(f *Framebuffer).Pixels(c)`: reads back one region of exactly
`(NextPowerOf2(width), NextPowerOf2(height))` through
`FramebufferPixels`, returning that call's error. -/
def Framebuffer.Pixels (f : Framebuffer) (c : Context) :
    List GLCall × Option String :=
  let call := GLCall.framebufferPixels f.native (NextPowerOf2 f.width) (NextPowerOf2 f.height)
  ([call], c call)

/-! ## Operation sequences over a framebuffer (for the immutability
claim): one constructor per public operation of the embedded file. -/

/-- One public operation on a `Framebuffer`. -/
inductive FbOp where
  | fill (clr : GoColor)
  | drawTexture (t : Texture)
  | projMatrix
  | dispose
deriving Repr

/-- Applies one operation and keeps the framebuffer state it leaves
behind (`Fill` and `Dispose` do not mutate the record; `DrawTexture` and
`projectionMatrix` may fill the matrix cache). -/
def stepFb (c : Context) (f : Framebuffer) (op : FbOp) : Framebuffer :=
  match op with
  | .fill _ => f
  | .drawTexture t => (f.DrawTexture c t).2.2
  | .projMatrix => f.projectionMatrix.2
  | .dispose => f

/-- Runs a sequence of operations from a starting framebuffer. -/
def runFbOps (c : Context) (f : Framebuffer) (ops : List FbOp) : Framebuffer :=
  ops.foldl (stepFb c) f

/-- Runs a sequence of `ClearPixels` calls on a restorable image,
keeping the image state each successful call leaves behind (a panicking
call leaves the image as it was). -/
def runClears (i : Image) (rs : List Rectangle) : Image :=
  rs.foldl (fun j r => match j.ClearPixels r with
    | .ok jr => jr.1
    | .error _ => j) i

/-! ## Restoration log and replay

The restoration machinery is code of this repository that is not under
`src/`; it is modelled from the spec: a `RestorationLog` is an "ordered
sequence of DrawOperations plus base-state (cleared-to-transparent)"
(§3), every draw/write/clear both mutates the live texture and is
appended to the log (§4.3), and restoration replays the log in order
against a freshly cleared backing region (§4.4). -/

/-- Modelled from the spec: one logged operation on a restorable image —
a clear of a region, a pixel write into a region, or a draw whose effect
on each covered texel is a function of the previous contents (blending,
§4.3). -/
inductive ROp where
  | clear (region : Rectangle)
  | write (region : Rectangle) (data : PixMap)
  | draw (region : Rectangle) (paint : PixMap → PixMap)

/-- Modelled from the spec: the pixel effect of one logged operation. -/
def applyROp (op : ROp) (p : PixMap) : PixMap :=
  match op with
  | .clear r => fun x y => if inRect r x y then Color.transparent else p x y
  | .write r d => fun x y => if inRect r x y then d x y else p x y
  | .draw r paint => fun x y => if inRect r x y then paint p x y else p x y

/-- The all-transparent backing contents of a freshly cleared region. -/
def clearedPix : PixMap := fun _ _ => Color.transparent

/-- Modelled from the spec: a restorable image's state — its
`RestorationLog` and the live texture contents. -/
structure RImage where
  log : List ROp
  live : PixMap

/-- A freshly created restorable image: empty log, cleared texture. -/
def newRImage : RImage :=
  ⟨[], clearedPix⟩

/-- Modelled from the spec: performing one operation both mutates the
live texture and appends the operation to the `RestorationLog` (§4.3). -/
def recordOp (op : ROp) (s : RImage) : RImage :=
  ⟨s.log ++ [op], applyROp op s.live⟩

/-- Runs a sequence of operations on a restorable image. -/
def runROps (ops : List ROp) : RImage :=
  ops.foldl (fun s op => recordOp op s) newRImage

/-- Modelled from the spec: replaying a log in order against a freshly
cleared backing region (§4.4). -/
def replayLog (log : List ROp) : PixMap :=
  log.foldl (fun p op => applyROp op p) clearedPix

/-- Modelled from the spec: a device-loss-and-restore cycle — the
backing texture is discarded and recreated empty, then the image's log
is replayed in order to reconstruct the live contents (§4.4). -/
def restoreR (s : RImage) : RImage :=
  ⟨s.log, replayLog s.log⟩

/-! ## Helper lemmas -/

/-- When the clipped intersection is empty, Go's `Intersect` returns the
zero rectangle. -/
lemma intersect_empty_eq_zero (r s : Rectangle)
    (h : (r.Intersect s).Empty = true) : r.Intersect s = Rectangle.zero := by
  unfold Rectangle.Intersect at h ⊢
  by_cases hc : (Rectangle.Empty
      ⟨⟨Max.max r.min.x s.min.x, Max.max r.min.y s.min.y⟩,
       ⟨Min.min r.max.x s.max.x, Min.min r.max.y s.max.y⟩⟩) = true
  · simp only [hc, if_true]
  · simp only [Bool.not_eq_true] at hc
    simp only [hc, Bool.false_eq_true, if_false] at h ⊢

/-- No point lies in the zero rectangle. -/
lemma inRect_zero (x y : Int) : inRect Rectangle.zero x y = false := by
  simp only [inRect, Rectangle.zero, decide_eq_false_iff_not]
  omega

/-! ## Claims C1 – C3 -/

/-- C1 counterexample: the claim says every region whose clipped
intersection with the image's bounds is empty is a silent no-op, but for
the image of `NewImage(10, 10, false)` and the region `Rect(0, 0, 0, 0)`
— whose clipped intersection with the bounds is empty — `ClearPixels`
panics (embedded as `Except.error`) instead of doing nothing. -/
theorem C1_counterexample :
    ((Rect 0 0 0 0).Intersect (Rect 0 0 10 10)).Empty = true ∧
    Image.ClearPixels (NewImage 10 10 false).1 (Rect 0 0 0 0)
      = Except.error "restorable: width/height must be positive" :=
  ⟨by decide, by rfl⟩

/-- C1 (amended): for every image and every region with **positive width
and height** whose clipped intersection with the image's bounds is
empty, `ClearPixels` does not panic: it silently clips, the single clear
draw it issues covers the zero rectangle, and that draw leaves every
texel unchanged. (Regions whose own width or height is non-positive
panic instead.) -/
theorem C1_amended (i : Image) (region : Rectangle) (p : PixMap) (x y : Int)
    (h1 : 0 < region.Dx) (h2 : 0 < region.Dy)
    (h3 : (region.Intersect (Rect 0 0 i.width i.height)).Empty = true) :
    i.ClearPixels region = Except.ok (i, clearImage i.img Rectangle.zero) ∧
    drawCallSem (clearImage i.img Rectangle.zero) p x y = p x y := by
  constructor
  · unfold Image.ClearPixels
    rw [if_neg (by omega), intersect_empty_eq_zero _ _ h3]
  · simp [drawCallSem, clearImage, GCImage.DrawTriangles, inRect_zero]

/-- C1 witness: a 10×10 image and the region `Rect(20, 20, 30, 30)` —
positive size, empty clipped intersection — evaluated concretely. -/
theorem C1_witness :
    0 < (Rect 20 20 30 30).Dx ∧ 0 < (Rect 20 20 30 30).Dy ∧
    ((Rect 20 20 30 30).Intersect
      (Rect 0 0 (NewImage 10 10 false).1.width (NewImage 10 10 false).1.height)).Empty
        = true ∧
    (Image.ClearPixels (NewImage 10 10 false).1 (Rect 20 20 30 30)
        = Except.ok ((NewImage 10 10 false).1,
            clearImage (NewImage 10 10 false).1.img Rectangle.zero) ∧
      drawCallSem (clearImage (NewImage 10 10 false).1.img Rectangle.zero)
        (fun _ _ => ⟨1, 1, 1, 1⟩) 5 5 = (fun _ _ => (⟨1, 1, 1, 1⟩ : Color)) 5 5) :=
  ⟨by decide, by decide, by decide,
   C1_amended (NewImage 10 10 false).1 (Rect 20 20 30 30)
     (fun _ _ => ⟨1, 1, 1, 1⟩) 5 5 (by decide) (by decide) (by decide)⟩

/-- C2: for every image and every region with positive width and height,
`ClearPixels` issues exactly the `DrawTriangles` call of a
fully-transparent quad over the region clipped to the image's bounds —
`BlendClear`, quad vertices spanning the clipped region with zero source
coordinates and zero colors, quad indices, no source images — and the
pixel effect of that call is to make the clipped region transparent and
leave everything else unchanged. -/
theorem C2_clear_is_transparent_quad (i : Image) (region : Rectangle)
    (p : PixMap) (x y : Int) (h1 : 0 < region.Dx) (h2 : 0 < region.Dy) :
    i.ClearPixels region = Except.ok (i,
      { dst := i.img,
        srcs := List.replicate ShaderSrcImageCount none,
        vertices := QuadVerticesFromDstAndSrc
          ((region.Intersect (Rect 0 0 i.width i.height)).min.x : ℚ)
          ((region.Intersect (Rect 0 0 i.width i.height)).min.y : ℚ)
          ((region.Intersect (Rect 0 0 i.width i.height)).max.x : ℚ)
          ((region.Intersect (Rect 0 0 i.width i.height)).max.y : ℚ)
          0 0 0 0 0 0 0 0,
        indices := QuadIndices,
        blend := Blend.clear,
        dstRegion := region.Intersect (Rect 0 0 i.width i.height),
        srcRegions := List.replicate ShaderSrcImageCount Rectangle.zero,
        shader := clearShaderHandle,
        fillRule := FillRule.fillAll }) ∧
    drawCallSem (clearImage i.img (region.Intersect (Rect 0 0 i.width i.height))) p x y
      = if inRect (region.Intersect (Rect 0 0 i.width i.height)) x y
          then Color.transparent else p x y := by
  constructor
  · unfold Image.ClearPixels
    rw [if_neg (by omega)]
    rfl
  · rfl

/-- C2 witness: a 10×10 image, the region `Rect(2, 3, 12, 8)` and the
texel `(4, 4)`, evaluated concretely. -/
theorem C2_witness :
    0 < (Rect 2 3 12 8).Dx ∧ 0 < (Rect 2 3 12 8).Dy ∧
    (Image.ClearPixels (NewImage 10 10 false).1 (Rect 2 3 12 8)
        = Except.ok ((NewImage 10 10 false).1,
          { dst := (NewImage 10 10 false).1.img,
            srcs := List.replicate ShaderSrcImageCount none,
            vertices := QuadVerticesFromDstAndSrc
              (((Rect 2 3 12 8).Intersect (Rect 0 0 (NewImage 10 10 false).1.width
                (NewImage 10 10 false).1.height)).min.x : ℚ)
              (((Rect 2 3 12 8).Intersect (Rect 0 0 (NewImage 10 10 false).1.width
                (NewImage 10 10 false).1.height)).min.y : ℚ)
              (((Rect 2 3 12 8).Intersect (Rect 0 0 (NewImage 10 10 false).1.width
                (NewImage 10 10 false).1.height)).max.x : ℚ)
              (((Rect 2 3 12 8).Intersect (Rect 0 0 (NewImage 10 10 false).1.width
                (NewImage 10 10 false).1.height)).max.y : ℚ)
              0 0 0 0 0 0 0 0,
            indices := QuadIndices,
            blend := Blend.clear,
            dstRegion := (Rect 2 3 12 8).Intersect (Rect 0 0 (NewImage 10 10 false).1.width
              (NewImage 10 10 false).1.height),
            srcRegions := List.replicate ShaderSrcImageCount Rectangle.zero,
            shader := clearShaderHandle,
            fillRule := FillRule.fillAll }) ∧
      drawCallSem (clearImage (NewImage 10 10 false).1.img
          ((Rect 2 3 12 8).Intersect (Rect 0 0 (NewImage 10 10 false).1.width
            (NewImage 10 10 false).1.height)))
          (fun _ _ => ⟨1, 0, 0, 1⟩) 4 4
        = if inRect ((Rect 2 3 12 8).Intersect (Rect 0 0 (NewImage 10 10 false).1.width
            (NewImage 10 10 false).1.height)) 4 4
          then Color.transparent else (fun _ _ => (⟨1, 0, 0, 1⟩ : Color)) 4 4) :=
  ⟨by decide, by decide,
   C2_clear_is_transparent_quad (NewImage 10 10 false).1 (Rect 2 3 12 8)
     (fun _ _ => ⟨1, 0, 0, 1⟩) 4 4 (by decide) (by decide)⟩

/-- C3 counterexample: the claim says creation with non-positive
dimensions is rejected rather than producing an image, but
`NewImage(0, 0, false)` performs no validation and yields an image whose
stored width and height are 0. -/
theorem C3_counterexample :
    (NewImage 0 0 false).1.width = 0 ∧ (NewImage 0 0 false).1.height = 0 :=
  ⟨rfl, rfl⟩

/-- C3 (amended): `NewImage` stores the given width and height without
any validation, so the invariant width > 0 and height > 0 holds for the
created image exactly when the caller passes positive dimensions — no
rejection of non-positive sizes happens at this layer. -/
theorem C3_amended (w h : Int) (s : Bool) (hw : 0 < w) (hh : 0 < h) :
    (NewImage w h s).1.width = w ∧ (NewImage w h s).1.height = h ∧
    0 < (NewImage w h s).1.width ∧ 0 < (NewImage w h s).1.height :=
  ⟨rfl, rfl, hw, hh⟩

/-- C3 witness: creation with the concrete positive size 7×5. -/
theorem C3_witness :
    (0 : Int) < 7 ∧ (0 : Int) < 5 ∧
    ((NewImage 7 5 true).1.width = 7 ∧ (NewImage 7 5 true).1.height = 5 ∧
      0 < (NewImage 7 5 true).1.width ∧ 0 < (NewImage 7 5 true).1.height) :=
  ⟨by decide, by decide, C3_amended 7 5 true (by decide) (by decide)⟩

/-! ## Next-power-of-two lemmas -/

/-- The doubling loop keeps a positive accumulator positive. -/
lemma np2go_pos (n : Nat) : ∀ fuel acc, 0 < acc → 0 < np2go n fuel acc := by
  intro fuel
  induction fuel with
  | zero => intro acc h; exact h
  | succ k ih =>
    intro acc h
    unfold np2go
    split
    · exact h
    · exact ih (2 * acc) (by omega)

/-- With enough fuel the doubling loop reaches `n`. -/
lemma np2go_ge (n : Nat) : ∀ fuel acc, n ≤ acc * 2 ^ fuel → n ≤ np2go n fuel acc := by
  intro fuel
  induction fuel with
  | zero => intro acc h; simpa using h
  | succ k ih =>
    intro acc h
    unfold np2go
    split
    · assumption
    · exact ih (2 * acc) (le_of_le_of_eq h (by ring))

/-- The doubling loop preserves power-of-two accumulators. -/
lemma np2go_pow (n : Nat) : ∀ fuel acc, (∃ j, acc = 2 ^ j) →
    ∃ j, np2go n fuel acc = 2 ^ j := by
  intro fuel
  induction fuel with
  | zero => intro acc h; exact h
  | succ k ih =>
    intro acc h
    unfold np2go
    split
    · exact h
    · obtain ⟨j, hj⟩ := h
      exact ih (2 * acc) ⟨j + 1, by rw [hj]; ring⟩

/-- `NextPowerOf2 n` is positive. -/
lemma nextPowerOf2_pos (n : Int) : 0 < NextPowerOf2 n := by
  unfold NextPowerOf2
  exact_mod_cast np2go_pos n.toNat n.toNat 1 (by omega)

/-- `NextPowerOf2 n` is at least `n`. -/
lemma le_nextPowerOf2 (n : Int) : n ≤ NextPowerOf2 n := by
  by_cases hn : n ≤ 0
  · exact le_trans hn (le_of_lt (nextPowerOf2_pos n))
  · unfold NextPowerOf2
    have h1 : n.toNat ≤ np2go n.toNat n.toNat 1 :=
      np2go_ge n.toNat n.toNat 1 (by simpa using (Nat.lt_two_pow n.toNat).le)
    omega

/-- `NextPowerOf2 n` is a power of two. -/
lemma nextPowerOf2_is_pow (n : Int) : ∃ j : Nat, NextPowerOf2 n = (2 : Int) ^ j := by
  obtain ⟨j, hj⟩ := np2go_pow n.toNat n.toNat 1 ⟨0, by norm_num⟩
  exact ⟨j, by unfold NextPowerOf2; exact_mod_cast hj⟩

/-! ## Claims C4 – C6 -/

/-- `projectionMatrix` leaves the width field unchanged. -/
lemma projectionMatrix_width (f : Framebuffer) :
    f.projectionMatrix.2.width = f.width := by
  rcases hf : f.proMatrix with _ | m <;>
    simp [Framebuffer.projectionMatrix, hf]

/-- `projectionMatrix` leaves the height field unchanged. -/
lemma projectionMatrix_height (f : Framebuffer) :
    f.projectionMatrix.2.height = f.height := by
  rcases hf : f.proMatrix with _ | m <;>
    simp [Framebuffer.projectionMatrix, hf]

/-- `DrawTexture` leaves the width field unchanged. -/
lemma drawTexture_width (f : Framebuffer) (c : Context) (t : Texture) :
    (f.DrawTexture c t).2.2.width = f.width := by
  unfold Framebuffer.DrawTexture Framebuffer.setAsViewport
  cases hc : c (viewportCall f) <;> simp [hc, projectionMatrix_width]

/-- `DrawTexture` leaves the height field unchanged. -/
lemma drawTexture_height (f : Framebuffer) (c : Context) (t : Texture) :
    (f.DrawTexture c t).2.2.height = f.height := by
  unfold Framebuffer.DrawTexture Framebuffer.setAsViewport
  cases hc : c (viewportCall f) <;> simp [hc, projectionMatrix_height]

/-- One framebuffer operation preserves the stored size. -/
lemma stepFb_size (c : Context) (f : Framebuffer) (op : FbOp) :
    (stepFb c f op).width = f.width ∧ (stepFb c f op).height = f.height := by
  cases op with
  | fill clr => exact ⟨rfl, rfl⟩
  | drawTexture t => exact ⟨drawTexture_width f c t, drawTexture_height f c t⟩
  | projMatrix => exact ⟨projectionMatrix_width f, projectionMatrix_height f⟩
  | dispose => exact ⟨rfl, rfl⟩

/-- Any sequence of framebuffer operations preserves the stored size. -/
lemma runFbOps_size (c : Context) (ops : List FbOp) : ∀ f : Framebuffer,
    (runFbOps c f ops).width = f.width ∧ (runFbOps c f ops).height = f.height := by
  induction ops with
  | nil => intro f; exact ⟨rfl, rfl⟩
  | cons op ops ih =>
    intro f
    have h1 := stepFb_size c f op
    have h2 := ih (stepFb c f op)
    unfold runFbOps at h2 ⊢
    simp only [List.foldl_cons]
    omega

/-- A `ClearPixels` call never mutates the image record. -/
lemma clear_step_eq (j : Image) (r : Rectangle) :
    (match j.ClearPixels r with
      | .ok jr => jr.1
      | .error _ => j) = j := by
  unfold Image.ClearPixels
  by_cases hc : (r.Dx ≤ 0 ∨ r.Dy ≤ 0) <;> simp [hc]

/-- Any sequence of `ClearPixels` calls leaves the image record as it
was. -/
lemma runClears_eq (rs : List Rectangle) : ∀ i : Image, runClears i rs = i := by
  induction rs with
  | nil => intro i; rfl
  | cons r rs ih =>
    intro i
    unfold runClears at ih ⊢
    simp only [List.foldl_cons]
    rw [clear_step_eq]
    exact ih i

/-- C4: image dimensions are immutable after creation — a restorable
image's width and height survive any sequence of `ClearPixels` calls
unchanged, and a framebuffer's `Size()` returns the construction-time
size after any sequence of `Fill`, `DrawTexture`, `projectionMatrix` or
`Dispose` calls. -/
theorem C4_dimensions_immutable (i : Image) (rs : List Rectangle)
    (f : Framebuffer) (c : Context) (ops : List FbOp) :
    (runClears i rs).width = i.width ∧ (runClears i rs).height = i.height ∧
    (runFbOps c f ops).Size = f.Size := by
  refine ⟨by rw [runClears_eq], by rw [runClears_eq], ?_⟩
  have h := runFbOps_size c ops f
  simp only [Framebuffer.Size]
  rw [h.1, h.2]

/-- C5: the backing dimensions used for driver operations are the next
power of two of the logical size — `setAsViewport` issues its
`SetViewport` call over `(NextPowerOf2 w, NextPowerOf2 h)`, `Pixels`
reads back a region of exactly `(NextPowerOf2 w, NextPowerOf2 h)`, and
`projectionMatrix` (on first computation) builds the orthographic matrix
over `(NextPowerOf2 w, NextPowerOf2 h)` with the `flipY` adjustment. -/
theorem C5_backing_is_next_power_of_two (f : Framebuffer) (c : Context)
    (hp : f.proMatrix = none) :
    (f.setAsViewport c).1
      = [GLCall.setViewport f.native (NextPowerOf2 f.width) (NextPowerOf2 f.height)] ∧
    (f.Pixels c).1
      = [GLCall.framebufferPixels f.native (NextPowerOf2 f.width) (NextPowerOf2 f.height)] ∧
    f.projectionMatrix.1
      = (if f.flipY then
          { orthoProjectionMatrix 0 (NextPowerOf2 f.width) 0 (NextPowerOf2 f.height) with
            a11 := (orthoProjectionMatrix 0 (NextPowerOf2 f.width) 0
              (NextPowerOf2 f.height)).a11 * (-1),
            a13 := (orthoProjectionMatrix 0 (NextPowerOf2 f.width) 0
              (NextPowerOf2 f.height)).a13
              + (f.height : ℚ) / ((NextPowerOf2 f.height : Int) : ℚ) * 2 }
        else orthoProjectionMatrix 0 (NextPowerOf2 f.width) 0 (NextPowerOf2 f.height)) := by
  refine ⟨rfl, rfl, ?_⟩
  unfold Framebuffer.projectionMatrix
  rw [hp]

/-- C5 witness: a concrete framebuffer of logical size 5×3 with an empty
matrix cache. -/
theorem C5_witness :
    (Framebuffer.proMatrix ⟨2, 5, 3, true, none⟩ = none) ∧
    ((Framebuffer.setAsViewport ⟨2, 5, 3, true, none⟩ (fun _ => none)).1
        = [GLCall.setViewport (Framebuffer.native ⟨2, 5, 3, true, none⟩)
            (NextPowerOf2 (Framebuffer.width ⟨2, 5, 3, true, none⟩))
            (NextPowerOf2 (Framebuffer.height ⟨2, 5, 3, true, none⟩))] ∧
      (Framebuffer.Pixels ⟨2, 5, 3, true, none⟩ (fun _ => none)).1
        = [GLCall.framebufferPixels (Framebuffer.native ⟨2, 5, 3, true, none⟩)
            (NextPowerOf2 (Framebuffer.width ⟨2, 5, 3, true, none⟩))
            (NextPowerOf2 (Framebuffer.height ⟨2, 5, 3, true, none⟩))] ∧
      (Framebuffer.projectionMatrix ⟨2, 5, 3, true, none⟩).1
        = (if Framebuffer.flipY ⟨2, 5, 3, true, none⟩ then
            { orthoProjectionMatrix 0 (NextPowerOf2 (Framebuffer.width ⟨2, 5, 3, true, none⟩)) 0
                (NextPowerOf2 (Framebuffer.height ⟨2, 5, 3, true, none⟩)) with
              a11 := (orthoProjectionMatrix 0
                (NextPowerOf2 (Framebuffer.width ⟨2, 5, 3, true, none⟩)) 0
                (NextPowerOf2 (Framebuffer.height ⟨2, 5, 3, true, none⟩))).a11 * (-1),
              a13 := (orthoProjectionMatrix 0
                (NextPowerOf2 (Framebuffer.width ⟨2, 5, 3, true, none⟩)) 0
                (NextPowerOf2 (Framebuffer.height ⟨2, 5, 3, true, none⟩))).a13
                + ((Framebuffer.height ⟨2, 5, 3, true, none⟩ : Int) : ℚ)
                  / ((NextPowerOf2 (Framebuffer.height ⟨2, 5, 3, true, none⟩) : Int) : ℚ) * 2 }
          else orthoProjectionMatrix 0
            (NextPowerOf2 (Framebuffer.width ⟨2, 5, 3, true, none⟩)) 0
            (NextPowerOf2 (Framebuffer.height ⟨2, 5, 3, true, none⟩)))) :=
  ⟨rfl, C5_backing_is_next_power_of_two ⟨2, 5, 3, true, none⟩ (fun _ => none) rfl⟩

/-- C6: a driver failure in `setAsViewport` is propagated and aborts
the operation before any further driver call — `Fill` returns the error
having issued only the one `SetViewport` call (no `FillFramebuffer`),
and `DrawTexture` returns the error having issued only the one
`SetViewport` call (no draw), leaving the framebuffer untouched; the
failed call is never retried (the trace holds exactly one call). -/
theorem C6_driver_error_propagated (f : Framebuffer) (c : Context)
    (clr : GoColor) (t : Texture) (e : String)
    (he : c (viewportCall f) = some e) :
    f.Fill c clr = ([viewportCall f], some e) ∧
    f.DrawTexture c t = ([viewportCall f], some e, f) := by
  constructor <;>
    simp [Framebuffer.Fill, Framebuffer.DrawTexture, Framebuffer.setAsViewport, he]

/-- C6 witness: a concrete framebuffer against a driver that fails every
call with "device lost". -/
theorem C6_witness :
    ((fun _ => some "device lost") (viewportCall ⟨2, 5, 3, true, none⟩)
        = some "device lost") ∧
    (Framebuffer.Fill ⟨2, 5, 3, true, none⟩ (fun _ => some "device lost") ⟨1, 2, 3, 4⟩
        = ([viewportCall ⟨2, 5, 3, true, none⟩], some "device lost") ∧
      Framebuffer.DrawTexture ⟨2, 5, 3, true, none⟩ (fun _ => some "device lost") ⟨7, 4, 4⟩
        = ([viewportCall ⟨2, 5, 3, true, none⟩], some "device lost",
            ⟨2, 5, 3, true, none⟩)) :=
  ⟨rfl, C6_driver_error_propagated ⟨2, 5, 3, true, none⟩ (fun _ => some "device lost")
    ⟨1, 2, 3, 4⟩ ⟨7, 4, 4⟩ "device lost" rfl⟩

/-! ## Claims C7 – C10 -/

/-- Replaying a log extended by one operation applies that operation to
the replay of the shorter log. -/
lemma replayLog_append (log : List ROp) (op : ROp) :
    replayLog (log ++ [op]) = applyROp op (replayLog log) := by
  unfold replayLog
  rw [List.foldl_append]
  rfl

/-- The live texture always equals the replay of the accumulated log:
the invariant is preserved by every recorded operation. -/
lemma foldl_record_inv (ops : List ROp) : ∀ s : RImage,
    s.live = replayLog s.log →
    (ops.foldl (fun s op => recordOp op s) s).live
      = replayLog (ops.foldl (fun s op => recordOp op s) s).log := by
  induction ops with
  | nil => intro s h; exact h
  | cons op ops ih =>
    intro s h
    simp only [List.foldl_cons]
    refine ih (recordOp op s) ?_
    show applyROp op s.live = replayLog (s.log ++ [op])
    rw [replayLog_append, h]

/-- C7: restore round-trip — for any sequence of draw/write/clear
operations applied to a fresh image, reading back any texel after a
device-loss-and-restore cycle (replaying the `RestorationLog` in order
against a freshly cleared backing region) yields exactly the texel read
back before the loss. -/
theorem C7_restore_roundtrip (ops : List ROp) (x y : Int) :
    (restoreR (runROps ops)).live x y = (runROps ops).live x y := by
  have h : (runROps ops).live = replayLog (runROps ops).log :=
    foldl_record_inv ops newRImage rfl
  show replayLog (runROps ops).log x y = (runROps ops).live x y
  rw [h]

/-- `NextPowerOf2` dimensions bound every texel of the logical region. -/
lemma inRect_internal (w h x y : Int) (hx : 0 ≤ x) (hy : 0 ≤ y)
    (hxw : x < NextPowerOf2 w) (hyh : y < NextPowerOf2 h) :
    inRect (Rect 0 0 (NextPowerOf2 w) (NextPowerOf2 h)) x y = true := by
  have ha := nextPowerOf2_pos w
  have hb := nextPowerOf2_pos h
  unfold inRect Rect
  rw [if_neg (by omega), if_neg (by omega)]
  simp only [decide_eq_true_eq]
  exact ⟨hx, hxw, hy, hyh⟩

/-- C8: every image returned by `NewImage` is fully cleared at creation
over the whole internal backing size — `NewImage` issues exactly one
clear draw, its region is `(0, 0, InternalSize.w, InternalSize.h)`
(the next powers of two of the logical size, which contain the whole
logical region since `w ≤ NextPowerOf2 w` and `h ≤ NextPowerOf2 h`),
and after that draw every texel of the internal region — padding
included — reads back fully transparent. -/
theorem C8_new_image_cleared_over_internal_size (w h : Int) (s : Bool)
    (p : PixMap) (x y : Int) (hx : 0 ≤ x) (hy : 0 ≤ y)
    (hxw : x < NextPowerOf2 w) (hyh : y < NextPowerOf2 h) :
    (NewImage w h s).2
      = [clearImage (NewImage w h s).1.img
          (Rect 0 0 (NextPowerOf2 w) (NextPowerOf2 h))] ∧
    w ≤ NextPowerOf2 w ∧ h ≤ NextPowerOf2 h ∧
    ((NewImage w h s).2.foldl (fun q dc => drawCallSem dc q) p) x y
      = Color.transparent := by
  refine ⟨rfl, le_nextPowerOf2 w, le_nextPowerOf2 h, ?_⟩
  show drawCallSem (clearImage (GCImage.new w h s)
    (Rect 0 0 (NextPowerOf2 w) (NextPowerOf2 h))) p x y = Color.transparent
  show (if inRect (Rect 0 0 (NextPowerOf2 w) (NextPowerOf2 h)) x y
    then Color.transparent else p x y) = Color.transparent
  rw [inRect_internal w h x y hx hy hxw hyh]
  rfl

/-- C8 witness: a fresh 3×2 image; the texel `(3, 1)` lies in the
padding between the logical width 3 and the internal width 4, and reads
back transparent. -/
theorem C8_witness :
    (0 : Int) ≤ 3 ∧ (0 : Int) ≤ 1 ∧
    (3 : Int) < NextPowerOf2 3 ∧ (1 : Int) < NextPowerOf2 2 ∧
    ((NewImage 3 2 false).2
        = [clearImage (NewImage 3 2 false).1.img
            (Rect 0 0 (NextPowerOf2 3) (NextPowerOf2 2))] ∧
      (3 : Int) ≤ NextPowerOf2 3 ∧ (2 : Int) ≤ NextPowerOf2 2 ∧
      ((NewImage 3 2 false).2.foldl (fun q dc => drawCallSem dc q)
          (fun _ _ => ⟨1, 1, 0, 1⟩)) 3 1 = Color.transparent) :=
  ⟨by decide, by decide, by decide, by decide,
   C8_new_image_cleared_over_internal_size 3 2 false (fun _ _ => ⟨1, 1, 0, 1⟩)
     3 1 (by decide) (by decide) (by decide) (by decide)⟩

/-- C9: `projectionMatrix` caches — after any call the computed matrix
is stored in the framebuffer, and a second call returns the identical
stored matrix while leaving the framebuffer state exactly as the first
call left it, so the matrix observed by callers never changes. -/
theorem C9_projection_matrix_caches (f : Framebuffer) :
    f.projectionMatrix.2.proMatrix = some f.projectionMatrix.1 ∧
    f.projectionMatrix.2.projectionMatrix.1 = f.projectionMatrix.1 ∧
    f.projectionMatrix.2.projectionMatrix.2 = f.projectionMatrix.2 := by
  rcases hf : f.proMatrix with _ | m <;>
    simp [Framebuffer.projectionMatrix, hf]

/-- C10: `Dispose` never destroys the default framebuffer — it issues
exactly one `DeleteFramebuffer` with the framebuffer's native handle
when that handle is not the zero framebuffer, and issues no driver call
at all when it is; and `NewZeroFramebuffer` always succeeds with a nil
error, producing a framebuffer whose native handle is the zero
framebuffer. -/
theorem C10_dispose_spares_default (f : Framebuffer) (w h : Int) :
    f.Dispose = (if f.native = ZeroFramebuffer then []
      else [GLCall.deleteFramebuffer f.native]) ∧
    (f.Dispose).count (GLCall.deleteFramebuffer f.native)
      = (if f.native = ZeroFramebuffer then 0 else 1) ∧
    (NewZeroFramebuffer w h).2 = none ∧
    (NewZeroFramebuffer w h).1.native = ZeroFramebuffer := by
  refine ⟨rfl, ?_, rfl, rfl⟩
  unfold Framebuffer.Dispose
  split <;> simp

end Ebiten
